import Mathlib

/-!
Verification development for the JWKS-backed bearer-token subsystem of
simple-query-server: a shallow embedding of the JWKS caching client
(internal/jwt/jwks.go, current revision), of the bearer-authentication
middleware and the middleware chain (internal/middleware), and theorems
about them.  Go maps from strings are modelled as association lists with
shadowing insertion; time instants and durations are integer nanosecond
counts; the HTTP fetch is modelled by passing the observable outcome of
the request as an input and recording the URLs requested.
-/

namespace SimpleQueryServer

/-- SMap V models Go's map[string]V: an association list where an insert
shadows any previous binding of the same key. -/
def SMap (V : Type) : Type := List (String × V)

namespace SMap

/-- empty map, Go's make(map[string]V). -/
def empty {V : Type} : SMap V := []

/-- lookup, Go's m[k] two-result read. -/
def find? {V : Type} : SMap V → String → Option V
  | [], _ => none
  | (k', v) :: rest, k => if k' = k then some v else find? rest k

/-- insertion, Go's m[k] = v (replaces any previous binding). -/
def insert {V : Type} (m : SMap V) (k : String) (v : V) : SMap V :=
  (k, v) :: m

/-- emptiness test, Go's len(m) == 0. -/
def isEmpty {V : Type} : SMap V → Bool
  | [] => true
  | _ :: _ => false

end SMap

/-- JSONValue models the interface{} values that json decoding and the jwt
library produce for claim values. -/
inductive JSONValue where
  | str (s : String)
  | num (q : ℚ)
  | jbool (b : Bool)
  | arr (elems : List JSONValue)
  | null

/-- Claims models jwt.MapClaims: a JSON object of claim values. -/
def Claims : Type := SMap JSONValue

/- ------------------------------------------------------------------ -/
/- JWKS client, current revision (internal/jwt/jwks.go with the
   background-refresh design).                                         -/
/- ------------------------------------------------------------------ -/

/-- RSAPublicKey models crypto/rsa.PublicKey: a natural-number modulus N
and an int exponent E. -/
structure RSAPublicKey where
  n : Nat
  e : Int

/-- JWK mirrors the jwt.JWK struct (JSON tags kty, kid, use, x5c, n, e). -/
structure JWK where
  KeyType : String
  KeyID : String
  Usage : String
  X509CertChain : List String
  Modulus : String
  Exponent : String

/-- ExtPrimitives collects the standard-library primitives the key parser
calls out to: base64.RawURLEncoding.DecodeString (returning the byte list
or an error), and the pem.Decode / x509.ParseCertificate / RSA type
assertion pipeline (returning the certificate's RSA public key or an
error). -/
structure ExtPrimitives where
  b64UrlDecode : String → Option (List Nat)
  x509ParseRSA : String → Option RSAPublicKey

/-- beBytesToNat models big.Int SetBytes: the bytes are a big-endian
unsigned integer. -/
def beBytesToNat (bs : List Nat) : Nat :=
  bs.foldl (fun a b => a * 256 + b % 256) 0

/-- int64OfNat models int(bigInt.Int64()): the low 64 bits of the value,
interpreted in two's complement. -/
def int64OfNat (v : Nat) : Int :=
  let m : Nat := v % 2 ^ 64
  if m < 2 ^ 63 then (m : Int) else (m : Int) - 2 ^ 64

/-- constructRSAPublicKey mirrors jwt.constructRSAPublicKey: base64url
decode the modulus and exponent and assemble the key. -/
def constructRSAPublicKey (ext : ExtPrimitives)
    (modulusB64 exponentB64 : String) : Except String RSAPublicKey :=
  match ext.b64UrlDecode modulusB64 with
  | none => .error "failed to decode modulus"
  | some modulusBytes =>
    match ext.b64UrlDecode exponentB64 with
    | none => .error "failed to decode exponent"
    | some exponentBytes =>
      .ok { n := beBytesToNat modulusBytes,
            e := int64OfNat (beBytesToNat exponentBytes) }

/-- convertCertPEMToRSAPublicKey mirrors jwt.convertCertPEMToRSAPublicKey;
its pem/x509/type-assertion pipeline is the external primitive. -/
def convertCertPEMToRSAPublicKey (ext : ExtPrimitives) (certPEM : String) :
    Except String RSAPublicKey :=
  match ext.x509ParseRSA certPEM with
  | some key => .ok key
  | none => .error "failed to parse x509 certificate"

/-- parseRSAKey mirrors jwt.parseRSAKey: an x5c certificate entry is tried
first, then the (n, e) pair, else the key is rejected. -/
def parseRSAKey (ext : ExtPrimitives) (key : JWK) : Except String RSAPublicKey :=
  match key.X509CertChain with
  | cert :: _ =>
    convertCertPEMToRSAPublicKey ext
      ("-----BEGIN CERTIFICATE-----\n" ++ cert ++ "\n-----END CERTIFICATE-----")
  | [] =>
    if key.Modulus != "" && key.Exponent != "" then
      constructRSAPublicKey ext key.Modulus key.Exponent
    else
      .error ("RSA key " ++ key.KeyID ++ " has neither x5c nor n/e fields")

/-- goIsSpace is the whitespace predicate of strings.TrimSpace for the
ASCII range (space, tab, newline, vertical tab, form feed, carriage
return). -/
def goIsSpace (c : Char) : Bool :=
  c = ' ' || c = '\t' || c = '\n' || c = (Char.ofNat 11) || c = (Char.ofNat 12) || c = '\r'

/-- goTrimSpace models strings.TrimSpace: whitespace removed from both
ends. -/
def goTrimSpace (s : String) : String :=
  ⟨(((s.data.dropWhile goIsSpace).reverse.dropWhile goIsSpace).reverse)⟩

/-- goHasPfx models strings.HasPrefix. -/
def goHasPfx (s pre : String) : Bool :=
  pre.data.isPrefixOf s.data

/-- goDrop drops the first n characters of a string; applied after a
successful goHasPfx check of an n-character literal it is
strings.TrimPrefix. -/
def goDrop (s : String) (n : Nat) : String :=
  ⟨s.data.drop n⟩

/-- splitOnCharAux is the accumulator loop behind goSplitOnComma. -/
def splitOnCharAux (sep : Char) : List Char → List Char → List String
  | [], acc => [⟨acc.reverse⟩]
  | c :: rest, acc =>
    if c = sep then ⟨acc.reverse⟩ :: splitOnCharAux sep rest []
    else splitOnCharAux sep rest (c :: acc)

/-- goSplitOnComma models strings.Split(s, ","). -/
def goSplitOnComma (s : String) : List String :=
  splitOnCharAux ',' s.data []

/-- nsPerSecond is time.Second in nanoseconds. -/
def nsPerSecond : Int := 1000000000

/-- wrap64 reduces an integer into int64 two's-complement range, the
semantics of Go's int64 multiplication overflow. -/
def wrap64 (x : Int) : Int :=
  (x + 2 ^ 63) % 2 ^ 64 - 2 ^ 63

/-- atoi models strconv.Atoi: an optional sign followed by decimal digits,
rejecting anything else, the empty string, and values outside int64
range. -/
def atoi (s : String) : Option Int :=
  let cs := s.data
  let signedDigits : Bool × List Char :=
    match cs with
    | '+' :: rest => (false, rest)
    | '-' :: rest => (true, rest)
    | _ => (false, cs)
  let neg := signedDigits.1
  let ds := signedDigits.2
  if ds.isEmpty then none
  else if ds.all Char.isDigit then
    let v : Nat := ds.foldl (fun a c => a * 10 + (c.toNat - 48)) 0
    let i : Int := if neg then -(v : Int) else (v : Int)
    if i < -(2 ^ 63) || i > 2 ^ 63 - 1 then none else some i
  else none

/-- parseCacheControlLoop mirrors the directive loop in
JWKSClient.parseCacheControl: for each comma-separated directive in
order, a well-formed nonnegative max-age returns that many seconds
(int64 nanoseconds, wrapping on overflow as Go's Duration
multiplication does), an exact no-cache or no-store returns 0, and
when no directive matches the fallback TTL is returned. -/
def parseCacheControlLoop (fallbackTTL : Int) : List String → Int
  | [] => fallbackTTL
  | d :: rest =>
    let t := goTrimSpace d
    match (if goHasPfx t "max-age=" then atoi (goDrop t 8) else none) with
    | some maxAge =>
      if maxAge ≥ 0 then wrap64 (maxAge * nsPerSecond)
      else if t == "no-cache" || t == "no-store" then 0
      else parseCacheControlLoop fallbackTTL rest
    | none =>
      if t == "no-cache" || t == "no-store" then 0
      else parseCacheControlLoop fallbackTTL rest

/-- parseCacheControl mirrors JWKSClient.parseCacheControl: an absent
header yields the fallback TTL, otherwise the directives are scanned. -/
def parseCacheControl (fallbackTTL : Int) (cacheControl : String) : Int :=
  if cacheControl == "" then fallbackTTL
  else parseCacheControlLoop fallbackTTL (goSplitOnComma cacheControl)

/-- JWKSCache mirrors the jwt.JWKSCache struct of the current revision:
fetch instant, key map, and TTL (nanoseconds). -/
structure JWKSCache where
  fetchedAt : Int
  keysByID : SMap RSAPublicKey
  ttl : Int

/-- JWKSClientState is the mutable state of a jwt.JWKSClient: the JWKS
URL, the cache record, the configured fallback TTL and the failure
count that drives backoff. -/
structure JWKSClientState where
  jwksURL : String
  cache : JWKSCache
  fallbackTTL : Int
  failureCount : Nat

/-- HTTPBody is the observable body of a JWKS response: unreadable
(io.ReadAll fails), not JSON, or a decoded key set. -/
inductive HTTPBody where
  | unreadable
  | malformed
  | jwks (keys : List JWK)

/-- HTTPResult is the observable outcome of httpClient.Get on the JWKS
URL: a transport failure, or a response with status code, Cache-Control
header and body. -/
inductive HTTPResult where
  | netFailure
  | response (statusCode : Nat) (cacheControl : String) (body : HTTPBody)

/-- buildKeysStep is the body of the key-conversion loop of
JWKSClient.fetchJWKSFromServer: an RSA entry that parses is inserted
under its kid; a malformed entry is skipped; non-RSA entries are
ignored. -/
def buildKeysStep (ext : ExtPrimitives) (m : SMap RSAPublicKey) (key : JWK) :
    SMap RSAPublicKey :=
  if key.KeyType == "RSA" then
    match parseRSAKey ext key with
    | .ok rsaKey => m.insert key.KeyID rsaKey
    | .error _ => m
  else m

/-- buildKeysByID mirrors the key-conversion loop of
JWKSClient.fetchJWKSFromServer, folding buildKeysStep over the
response's keys starting from an empty map. -/
def buildKeysByID (ext : ExtPrimitives) (keys : List JWK) : SMap RSAPublicKey :=
  keys.foldl (buildKeysStep ext) SMap.empty

/-- fetchJWKSFromServer mirrors JWKSClient.fetchJWKSFromServer given the
observable outcome of the GET: it returns a freshly built cache record
without touching the existing one, or an error. -/
def fetchJWKSFromServer (ext : ExtPrimitives) (st : JWKSClientState)
    (h : HTTPResult) (now : Int) : Except String JWKSCache :=
  match h with
  | .netFailure => .error ("failed to fetch JWKS from " ++ st.jwksURL)
  | .response statusCode cacheControl body =>
    if statusCode ≠ 200 then
      .error ("JWKS endpoint returned status: " ++ toString statusCode)
    else
      match body with
      | .unreadable => .error "failed to read JWKS response"
      | .malformed => .error "failed to parse JWKS response"
      | .jwks keys =>
        let cacheTTL := parseCacheControl st.fallbackTTL cacheControl
        .ok { fetchedAt := now,
              keysByID := buildKeysByID ext keys,
              ttl := cacheTTL }

/-- OpResult is the observable outcome of one client operation: its
return value, the state it leaves behind, and the URLs it issued HTTP
GET requests to. -/
structure OpResult (α : Type) where
  value : α
  state : JWKSClientState
  httpRequests : List String

/-- GetPublicKey mirrors JWKSClient.GetPublicKey of the current revision:
a read of the in-memory key map under the read lock.  Its body contains
no call to the HTTP client, so the operation issues no requests and
leaves the state unchanged. -/
def GetPublicKey (st : JWKSClientState) (kid : String) :
    OpResult (Except String RSAPublicKey) :=
  { value :=
      match st.cache.keysByID.find? kid with
      | some rsaPublicKey => .ok rsaPublicKey
      | none => .error ("key not found for kid: " ++ kid),
    state := st,
    httpRequests := [] }

/-- performRefresh mirrors JWKSClient.performRefresh: one GET of the JWKS
URL; on error the failure count is incremented and the cache is left
alone, on success the failure count resets and the cache record is
replaced by the fetched one. -/
def performRefresh (ext : ExtPrimitives) (st : JWKSClientState)
    (h : HTTPResult) (now : Int) : OpResult Unit :=
  { value := (),
    state :=
      match fetchJWKSFromServer ext st h now with
      | .error _ => { st with failureCount := st.failureCount + 1 }
      | .ok newCache => { st with failureCount := 0, cache := newCache },
    httpRequests := [st.jwksURL] }

/-- runGetPublicKeys performs a sequence of GetPublicKey calls, threading
the state and collecting every HTTP request issued. -/
def runGetPublicKeys (st : JWKSClientState) :
    List String → List (Except String RSAPublicKey) × JWKSClientState × List String
  | [] => ([], st, [])
  | kid :: rest =>
    let r := GetPublicKey st kid
    let rec' := runGetPublicKeys r.state rest
    (r.value :: rec'.1, rec'.2.1, r.httpRequests ++ rec'.2.2)

/-- applyRefreshes folds a sequence of refresh attempts (each given by its
observed HTTP outcome and wall-clock instant) over the client state. -/
def applyRefreshes (ext : ExtPrimitives) (st : JWKSClientState) :
    List (HTTPResult × Int) → JWKSClientState
  | [] => st
  | e :: rest => applyRefreshes ext (performRefresh ext st e.1 e.2).state rest

/-- fetchFails holds exactly when fetchJWKSFromServer treats the observed
HTTP outcome as a failed fetch: transport error, non-200 status,
unreadable body, or malformed JSON. -/
def fetchFails : HTTPResult → Bool
  | .netFailure => true
  | .response statusCode _ body =>
    statusCode ≠ 200 ||
      match body with
      | .unreadable => true
      | .malformed => true
      | .jwks _ => false

/-- isOkE tests an Except for success. -/
def isOkE {ε α : Type} : Except ε α → Bool
  | .ok _ => true
  | .error _ => false

/-- parsedKeyIDs is the list of key IDs of the response's RSA entries that
parseRSAKey accepts — the keys the fetch stores. -/
def parsedKeyIDs (ext : ExtPrimitives) (keys : List JWK) : List String :=
  (keys.filter (fun k => k.KeyType == "RSA" && isOkE (parseRSAKey ext k))).map
    (fun k => k.KeyID)

/-- ratTruncToInt is truncation of a rational toward zero, the rounding
Go uses when converting a float64 to an integer type whose range can
represent the value. -/
def ratTruncToInt (q : ℚ) : Int :=
  if q < 0 then Int.ceil q else Int.floor q

/-- goFloatToInt64 models Go's conversion of a float64 value to int64
(time.Duration): truncation toward zero when the truncated value fits
in int64; when it does not, the conversion is implementation-defined
and the gc compiler on amd64 produces the sentinel -2^63 (cvttsd2si),
which is what this models.  An infinite float product corresponds to a
rational beyond int64 range and hits the same sentinel. -/
def goFloatToInt64 (q : ℚ) : Int :=
  let t := ratTruncToInt q
  if t < -(2 ^ 63) ∨ 2 ^ 63 - 1 < t then -(2 ^ 63) else t

/-- calculateBackoffDuration mirrors JWKSClient.calculateBackoffDuration.
The float64 values the source computes (float64(baseInterval), math.Pow
of 2, the 0.25 jitter range) are all exactly representable, so they are
carried exactly as rationals; each time.Duration(...) conversion of a
float64 goes through goFloatToInt64 — before the ten-minute cap, as in
the source — and the final int64 addition wraps.  The jitter draw is
the rand.Float64() sample in [0, 1). -/
def calculateBackoffDuration (failureCount : Nat) (jitterDraw : ℚ) : Int :=
  if failureCount = 0 then 0
  else
    let baseInterval : Int := 30 * nsPerSecond
    let maxInterval : Int := 600 * nsPerSecond
    let backoffRaw : Int := goFloatToInt64 ((baseInterval : ℚ) * 2 ^ (failureCount - 1))
    let backoffInterval : Int := if backoffRaw > maxInterval then maxInterval else backoffRaw
    let jitterRange : ℚ := (backoffInterval : ℚ) * (1 / 4)
    let jitter : Int := goFloatToInt64 (jitterDraw * 2 * jitterRange - jitterRange)
    wrap64 (backoffInterval + jitter)

/-- backoffBaseSeconds is the un-jittered backoff in seconds the
specification describes: min(30 * 2^(n-1), 600). -/
def backoffBaseSeconds (failureCount : Nat) : Int :=
  min (30 * 2 ^ (failureCount - 1)) 600

/- ------------------------------------------------------------------ -/
/- JWKS client, superseded revision V1 (the internal/jwt/jwks.go file
   with request-triggered refresh); its IsHealthy is the subject of one
   claim.                                                              -/
/- ------------------------------------------------------------------ -/

namespace V1

/-- JWKSCache mirrors the V1 jwt.JWKSCache fields that IsHealthy and the
fetch-failure path read or write (fetchedAt, keysByID, ttl,
lastFetchOK); a zero fetchedAt models time.Time.IsZero(). -/
structure JWKSCache where
  fetchedAt : Int
  keysByID : SMap RSAPublicKey
  ttl : Int
  lastFetchOK : Bool

/-- IsHealthy mirrors the V1 JWKSClient.IsHealthy: healthy when no fetch
was ever attempted, otherwise when the key map is non-empty and the
last fetch succeeded. -/
def IsHealthy (c : JWKSCache) : Bool :=
  if c.fetchedAt == 0 then true
  else !c.keysByID.isEmpty && c.lastFetchOK

/-- fetchFail mirrors the failure branches of the V1 JWKSClient.fetchJWKS:
lastFetchOK is cleared and fetchedAt records the attempt, while the key
map is preserved. -/
def fetchFail (c : JWKSCache) (now : Int) : JWKSCache :=
  { c with lastFetchOK := false, fetchedAt := now }

/-- IsHealthyClaimed follows the specification's words for IsHealthy, to
be compared with the source's IsHealthy: true if no fetch has ever been
attempted, or the key map is non-empty and the time elapsed since
fetchedAt is less than ttl. -/
def IsHealthyClaimed (now : Int) (c : JWKSCache) : Bool :=
  if c.fetchedAt == 0 then true
  else !c.keysByID.isEmpty && decide (now - c.fetchedAt < c.ttl)

end V1

/- ------------------------------------------------------------------ -/
/- Middleware layer: internal/middleware/middleware.go and
   internal/middleware/bearer_jwks.go.                                 -/
/- ------------------------------------------------------------------ -/

/-- Request models *http.Request restricted to what the middleware reads:
the header map and the context value stored under MiddlewareParamsKey
(None when no middleware has set parameters yet). -/
structure Request where
  headers : SMap String
  ctxParams : Option (SMap JSONValue)

/-- Response models what the middleware writes to the ResponseWriter:
a status code and a body string. -/
structure Response where
  status : Nat
  body : String

/-- Handler models http.HandlerFunc, observed through the response it
produces for a request. -/
def Handler : Type := Request → Response

/-- headerGet models r.Header.Get(name): the empty string when the header
is absent. -/
def headerGet (r : Request) (name : String) : String :=
  (r.headers.find? name).getD ""

/-- GetMiddlewareParams mirrors middleware.GetMiddlewareParams: the stored
parameter map when present, otherwise a fresh empty map. -/
def GetMiddlewareParams (r : Request) : SMap JSONValue :=
  r.ctxParams.getD SMap.empty

/-- SetMiddlewareParams mirrors middleware.SetMiddlewareParams: stores the
parameter map in the request context. -/
def SetMiddlewareParams (r : Request) (params : SMap JSONValue) : Request :=
  { r with ctxParams := some params }

/-- httpError models Go's http.Error(w, msg, code). -/
def httpError (msg : String) (code : Nat) : Response :=
  { status := code, body := msg }

/-- BearerJWKSConfig mirrors middleware.BearerJWKSConfig.  The Go field
ClaimsMapping is a map[string]string; it is embedded as a list of
(claim, parameter) pairs so that an iteration order is explicit. -/
structure BearerJWKSConfig where
  jwksURL : String
  required : Bool
  claimsMapping : List (String × String)
  issuer : String
  audience : String

/-- validateIssuerAudience mirrors the issuer and audience checks at the
end of BearerJWKSMiddleware.validateToken: when an expected value is
configured, the corresponding claim must be a JSON string exactly equal
to it (the Go type assertion claims[name].(string) fails on any
non-string value, arrays included). -/
def validateIssuerAudience (expectedIssuer expectedAudience : String)
    (claims : Claims) : Except String Claims :=
  if expectedIssuer != "" &&
      !(match claims.find? "iss" with
        | some (.str s) => s == expectedIssuer
        | _ => false) then
    .error ("invalid issuer: expected " ++ expectedIssuer)
  else if expectedAudience != "" &&
      !(match claims.find? "aud" with
        | some (.str s) => s == expectedAudience
        | _ => false) then
    .error ("invalid audience: expected " ++ expectedAudience)
  else
    .ok claims

/-- validateToken mirrors BearerJWKSMiddleware.validateToken.  The call to
jwt.Parse (signature check against the key looked up by kid, expiry and
well-formedness) is the external jwt library; it is abstracted as the
function argument parse, which returns the verified claims or an error.
The issuer and audience checks that follow it are embedded from the
source. -/
def validateToken (parse : String → Except String Claims)
    (expectedIssuer expectedAudience : String) (tokenString : String) :
    Except String Claims :=
  match parse tokenString with
  | .error e => .error ("failed to parse token: " ++ e)
  | .ok claims => validateIssuerAudience expectedIssuer expectedAudience claims

/-- applyClaimsMapping mirrors the claims-mapping loop in
BearerJWKSMiddleware.Wrap: for each (claim, parameter) pair, when the
claim is present in the verified claims the parameter is set to its
value. -/
def applyClaimsMapping (mapping : List (String × String)) (claims : Claims)
    (params : SMap JSONValue) : SMap JSONValue :=
  mapping.foldl
    (fun acc cp =>
      match claims.find? cp.1 with
      | some v => acc.insert cp.2 v
      | none => acc)
    params

/-- bearerWrap mirrors BearerJWKSMiddleware.Wrap, with the jwt library's
parse step abstracted as the parse argument.  The "Bearer " de-prefixing
uses that the string has been checked to start with it, so dropping seven
characters is strings.TrimPrefix. -/
def bearerWrap (parse : String → Except String Claims)
    (cfg : BearerJWKSConfig) (next : Handler) : Handler := fun r =>
  let authHeader := headerGet r "Authorization"
  if authHeader == "" then
    if cfg.required then httpError "Authorization header is required" 401
    else next r
  else if !(goHasPfx authHeader "Bearer ") then
    if cfg.required then httpError "Authorization header must be a Bearer token" 401
    else next r
  else
    let tokenString := goTrimSpace (goDrop authHeader 7)
    if tokenString == "" then
      if cfg.required then httpError "Bearer token is empty" 401
      else next r
    else
      match validateToken parse cfg.issuer cfg.audience tokenString with
      | .error e =>
        if cfg.required then httpError ("Invalid token: " ++ e) 401
        else next r
      | .ok claims =>
        let params := GetMiddlewareParams r
        let params := applyClaimsMapping cfg.claimsMapping claims params
        next (SetMiddlewareParams r params)

/-- bearerAuthAttemptFails states that authentication cannot succeed on
the request: the Authorization header is missing, or it is not a Bearer
header, or the token is empty after trimming, or verification fails. -/
def bearerAuthAttemptFails (parse : String → Except String Claims)
    (expectedIssuer expectedAudience : String) (r : Request) : Prop :=
  headerGet r "Authorization" = "" ∨
  goHasPfx (headerGet r "Authorization") "Bearer " = false ∨
  goTrimSpace (goDrop (headerGet r "Authorization") 7) = "" ∨
  ∃ e, validateToken parse expectedIssuer expectedAudience
      (goTrimSpace (goDrop (headerGet r "Authorization") 7)) = .error e

/-- Middleware mirrors the middleware.Middleware interface: a Wrap method
and a Name. -/
structure Middleware where
  wrapFn : Handler → Handler
  name : String

/-- Chain mirrors middleware.Chain, an ordered list of middleware. -/
def Chain : Type := List Middleware

/-- Chain.Wrap mirrors middleware.Chain.Wrap: the loop
"for i := len(c)-1; i >= 0; i-- { handler = c[i].Wrap(handler) }",
which is a right fold, so the first element of the chain is outermost. -/
def Chain.Wrap (c : Chain) (handler : Handler) : Handler :=
  c.foldr (fun m h => m.wrapFn h) handler

/-- paramSetterMiddleware is a middleware that writes one parameter into
the request-scoped parameter map and calls next, the parameter-writing
pattern of the repository's middleware (read the map, set the entry,
store the map, call next). -/
def paramSetterMiddleware (p : String) (v : JSONValue) : Middleware :=
  { wrapFn := fun next => fun r =>
      next (SetMiddlewareParams r ((GetMiddlewareParams r).insert p v)),
    name := "set(" ++ p ++ ")" }

/-- appendTraceMiddleware appends a tag to the "trace" parameter and calls
next; used to observe the execution order of a chain on the way in. -/
def appendTraceMiddleware (tag : String) : Middleware :=
  { wrapFn := fun next => fun r =>
      let cur := match (GetMiddlewareParams r).find? "trace" with
        | some (.str s) => s
        | _ => ""
      next (SetMiddlewareParams r
        ((GetMiddlewareParams r).insert "trace" (.str (cur ++ tag)))),
    name := "trace(" ++ tag ++ ")" }

/-- captureParam is a final handler that reports the string value of one
parameter as the response body. -/
def captureParam (p : String) : Handler := fun r =>
  { status := 200,
    body := match (GetMiddlewareParams r).find? p with
      | some (.str s) => s
      | _ => "" }

/- ------------------------------------------------------------------ -/
/- First-match reading of the Cache-Control scan (amended claim), and
   concrete fixtures used by witnesses and counterexamples.            -/
/- ------------------------------------------------------------------ -/

/-- directiveDecision states what a single trimmed directive decides, if
anything: a well-formed nonnegative max-age decides that many seconds,
an exact no-cache or no-store decides zero, anything else decides
nothing. -/
def directiveDecision (d : String) : Option Int :=
  let t := goTrimSpace d
  if goHasPfx t "max-age=" then
    match atoi (goDrop t 8) with
    | some maxAge => if maxAge ≥ 0 then some (wrap64 (maxAge * nsPerSecond)) else none
    | none => none
  else if t == "no-cache" || t == "no-store" then some 0
  else none

/-- parseCacheControlFirstMatch is the amended-claim reading of the
Cache-Control parser: the first directive (left to right) that decides
a TTL wins; an absent header or a scan with no deciding directive
yields the fallback TTL. -/
def parseCacheControlFirstMatch (fallbackTTL : Int) (cacheControl : String) : Int :=
  if cacheControl == "" then fallbackTTL
  else
    match (goSplitOnComma cacheControl).findSome? directiveDecision with
    | some ttl => ttl
    | none => fallbackTTL

/-- extEx is a concrete instantiation of the external primitives. -/
def extEx : ExtPrimitives :=
  { b64UrlDecode := fun _ => none, x509ParseRSA := fun _ => none }

/-- keyEx is a concrete RSA public key. -/
def keyEx : RSAPublicKey := { n := 12345, e := 65537 }

/-- stEmptyEx is a client state whose cache has never been populated. -/
def stEmptyEx : JWKSClientState :=
  { jwksURL := "https://issuer.example/.well-known/jwks.json",
    cache := { fetchedAt := 0, keysByID := SMap.empty, ttl := 600 * nsPerSecond },
    fallbackTTL := 600 * nsPerSecond,
    failureCount := 0 }

/-- stPopulatedEx is a client state whose cache holds one key after a
successful fetch. -/
def stPopulatedEx : JWKSClientState :=
  { jwksURL := "https://issuer.example/.well-known/jwks.json",
    cache := { fetchedAt := 1000, keysByID := SMap.empty.insert "key-1" keyEx,
               ttl := 60 * nsPerSecond },
    fallbackTTL := 600 * nsPerSecond,
    failureCount := 0 }

/-- failedEventsEx is a sequence of refresh attempts that all fail: a
transport error, a 500 status, and a malformed body. -/
def failedEventsEx : List (HTTPResult × Int) :=
  [(.netFailure, 2000),
   (.response 500 "" (.jwks []), 3000),
   (.response 200 "" .malformed, 4000)]

/-- cacheV1Ex is the V1 cache after a populated, fresh cache suffers one
failed fetch attempt at instant 2000. -/
def cacheV1Ex : V1.JWKSCache :=
  V1.fetchFail
    { fetchedAt := 1000, keysByID := SMap.empty.insert "key-1" keyEx,
      ttl := 3600 * nsPerSecond, lastFetchOK := true }
    2000

/-- parseRejectEx is a token parser that rejects every token. -/
def parseRejectEx : String → Except String Claims :=
  fun _ => .error "signature is invalid"

/-- claimsEx is the verified claim set of the specification's scenario:
sub 5 and role admin. -/
def claimsEx : Claims :=
  (SMap.empty.insert "role" (.str "admin")).insert "sub" (.str "5")

/-- parseAcceptEx is a token parser that accepts every token with the
scenario claims. -/
def parseAcceptEx : String → Except String Claims :=
  fun _ => .ok claimsEx

/-- cfgRequiredEx is a bearer middleware configuration with required
authentication and the scenario claims mapping. -/
def cfgRequiredEx : BearerJWKSConfig :=
  { jwksURL := "https://issuer.example/.well-known/jwks.json",
    required := true,
    claimsMapping := [("sub", "user_id"), ("role", "user_role")],
    issuer := "",
    audience := "" }

/-- reqNoAuthEx is a request with no Authorization header. -/
def reqNoAuthEx : Request := { headers := SMap.empty, ctxParams := none }

/-- reqBearerEx is a request carrying a bearer token. -/
def reqBearerEx : Request :=
  { headers := SMap.empty.insert "Authorization" "Bearer sometoken",
    ctxParams := none }

/-- okHandlerEx is a final handler that answers 200 ok. -/
def okHandlerEx : Handler := fun _ => { status := 200, body := "ok" }

/-- claimsIAEx is a claim set with matching string issuer and audience. -/
def claimsIAEx : Claims :=
  (SMap.empty.insert "aud" (.str "aud1")).insert "iss" (.str "iss1")

/-- claimsAudArrEx is a claim set whose aud claim is an array containing
the expected audience. -/
def claimsAudArrEx : Claims :=
  (SMap.empty.insert "aud" (.arr [.str "aud1"])).insert "iss" (.str "iss1")

/- ------------------------------------------------------------------ -/
/- Helper lemmas.                                                      -/
/- ------------------------------------------------------------------ -/

theorem SMap.find?_insert_self {V : Type} (m : SMap V) (k : String) (v : V) :
    (m.insert k v).find? k = some v := by
  simp [SMap.insert, SMap.find?]

theorem SMap.find?_insert_ne {V : Type} (m : SMap V) (k k' : String) (v : V)
    (h : k ≠ k') : (m.insert k v).find? k' = m.find? k' := by
  simp [SMap.insert, SMap.find?, h]

theorem applyClaimsMapping_find?_untouched (mapping : List (String × String))
    (claims : Claims) (params : SMap JSONValue) (p : String)
    (h : ∀ q ∈ mapping, q.2 = p → claims.find? q.1 = none) :
    (applyClaimsMapping mapping claims params).find? p = params.find? p := by
  induction mapping generalizing params with
  | nil => rfl
  | cons q rest ih =>
    have hrest : ∀ q' ∈ rest, q'.2 = p → claims.find? q'.1 = none :=
      fun q' hq' => h q' (List.mem_cons_of_mem q hq')
    cases hv : claims.find? q.1 with
    | none =>
      have hstep : applyClaimsMapping (q :: rest) claims params
          = applyClaimsMapping rest claims params := by
        simp [applyClaimsMapping, hv]
      rw [hstep]
      exact ih params hrest
    | some v =>
      have hne : q.2 ≠ p := fun hqp => by
        have hn := h q (List.mem_cons_self q rest) hqp
        rw [hn] at hv
        exact Option.noConfusion hv
      have hstep : applyClaimsMapping (q :: rest) claims params
          = applyClaimsMapping rest claims (params.insert q.2 v) := by
        simp [applyClaimsMapping, hv]
      rw [hstep]
      exact (ih (params.insert q.2 v) hrest).trans
        (SMap.find?_insert_ne params q.2 p v hne)

theorem buildKeysAux_find?_isSome (ext : ExtPrimitives) (kid : String) :
    ∀ (ks : List JWK) (m : SMap RSAPublicKey),
      ((ks.foldl (buildKeysStep ext) m).find? kid).isSome = true ↔
        ((m.find? kid).isSome = true ∨ kid ∈ parsedKeyIDs ext ks) := by
  intro ks
  induction ks with
  | nil =>
    intro m
    simp [parsedKeyIDs]
  | cons k ks ih =>
    intro m
    rw [List.foldl_cons, ih (buildKeysStep ext m k)]
    cases hkt : k.KeyType == "RSA" with
    | false =>
      have h1 : buildKeysStep ext m k = m := by simp [buildKeysStep, hkt]
      have h2 : parsedKeyIDs ext (k :: ks) = parsedKeyIDs ext ks := by
        simp [parsedKeyIDs, List.filter_cons, hkt]
      rw [h1, h2]
    | true =>
      cases hpk : parseRSAKey ext k with
      | error e =>
        have h1 : buildKeysStep ext m k = m := by simp [buildKeysStep, hkt, hpk]
        have h2 : parsedKeyIDs ext (k :: ks) = parsedKeyIDs ext ks := by
          simp [parsedKeyIDs, List.filter_cons, hkt, hpk, isOkE]
        rw [h1, h2]
      | ok rk =>
        have h1 : buildKeysStep ext m k = m.insert k.KeyID rk := by
          simp [buildKeysStep, hkt, hpk]
        have h2 : parsedKeyIDs ext (k :: ks) = k.KeyID :: parsedKeyIDs ext ks := by
          simp [parsedKeyIDs, List.filter_cons, hkt, hpk, isOkE]
        rw [h1, h2]
        constructor
        · rintro (hin | hmem)
          · by_cases hk : k.KeyID = kid
            · exact Or.inr (by rw [← hk]; exact List.mem_cons_self _ _)
            · rw [SMap.find?_insert_ne m k.KeyID kid rk hk] at hin
              exact Or.inl hin
          · exact Or.inr (List.mem_cons_of_mem _ hmem)
        · rintro (hin | hmem)
          · by_cases hk : k.KeyID = kid
            · refine Or.inl ?_
              rw [hk, SMap.find?_insert_self]
              rfl
            · refine Or.inl ?_
              rw [SMap.find?_insert_ne m k.KeyID kid rk hk]
              exact hin
          · rcases List.mem_cons.mp hmem with hk | hmem'
            · refine Or.inl ?_
              rw [← hk, SMap.find?_insert_self]
              rfl
            · exact Or.inr hmem'

theorem buildKeysByID_find?_isSome (ext : ExtPrimitives) (keys : List JWK)
    (kid : String) :
    ((buildKeysByID ext keys).find? kid).isSome = true ↔
      kid ∈ parsedKeyIDs ext keys := by
  have h := buildKeysAux_find?_isSome ext kid keys SMap.empty
  simpa [buildKeysByID, SMap.empty, SMap.find?] using h

theorem ratTruncToInt_intCast (z : Int) : ratTruncToInt ((z : ℚ)) = z := by
  unfold ratTruncToInt
  by_cases hz : ((z : ℚ)) < 0
  · rw [if_pos hz, Int.ceil_intCast]
  · rw [if_neg hz, Int.floor_intCast]

theorem goFloatToInt64_intCast (z : Int) (hlow : -(2 ^ 63) ≤ z)
    (hhigh : z ≤ 2 ^ 63 - 1) : goFloatToInt64 ((z : ℚ)) = z := by
  have hc : ¬(z < -(2 ^ 63) ∨ 2 ^ 63 - 1 < z) := by
    rintro (h | h)
    · exact absurd hlow (not_le.mpr h)
    · exact absurd hhigh (not_le.mpr h)
  simp only [goFloatToInt64, ratTruncToInt_intCast, if_neg hc]

theorem goFloatToInt64_eq_trunc (q : ℚ) (hlow : -(2 ^ 63) ≤ ratTruncToInt q)
    (hhigh : ratTruncToInt q ≤ 2 ^ 63 - 1) :
    goFloatToInt64 q = ratTruncToInt q := by
  have hc : ¬(ratTruncToInt q < -(2 ^ 63) ∨ 2 ^ 63 - 1 < ratTruncToInt q) := by
    rintro (h | h)
    · exact absurd hlow (not_le.mpr h)
    · exact absurd hhigh (not_le.mpr h)
  simp only [goFloatToInt64, if_neg hc]

theorem wrap64_eq_self (x : Int) (hlow : -(2 ^ 63) ≤ x) (hhigh : x < 2 ^ 63) :
    wrap64 x = x := by
  unfold wrap64
  have h1 : (0 : Int) ≤ x + 2 ^ 63 := by linarith
  have h2 : x + 2 ^ 63 < 2 ^ 64 := by
    have h3 : (2 : Int) ^ 64 = 2 ^ 63 + 2 ^ 63 := by norm_num
    linarith
  rw [Int.emod_eq_of_lt h1 h2]
  ring

theorem chainedGuard_eq_ok {α : Type} (b1 b2 : Bool) (e1 e2 : String) (v : α) :
    ((if b1 then Except.error e1 else if b2 then Except.error e2 else Except.ok v)
      = Except.ok v) ↔ (b1 = false ∧ b2 = false) := by
  cases b1 <;> cases b2 <;> simp

theorem claimString_iff (cl : Claims) (name expected : String) :
    ((match cl.find? name with
      | some (.str s) => s == expected
      | _ => false) = true) ↔ cl.find? name = some (.str expected) := by
  cases hv : cl.find? name with
  | none => simp
  | some v => cases v <;> simp

theorem guard_false_iff (x : String) (m : Bool) :
    ((x != "" && !m) = false) ↔ (x = "" ∨ m = true) := by
  cases hx : x == "" <;> cases m <;>
    simp_all [bne, beq_iff_eq]

theorem validateIA_eq_ok_iff (ei ea : String) (cl : Claims) :
    validateIssuerAudience ei ea cl = .ok cl ↔
      (ei = "" ∨ cl.find? "iss" = some (.str ei)) ∧
      (ea = "" ∨ cl.find? "aud" = some (.str ea)) := by
  have hok := chainedGuard_eq_ok
    (ei != "" && !(match cl.find? "iss" with
      | some (.str s) => s == ei
      | _ => false))
    (ea != "" && !(match cl.find? "aud" with
      | some (.str s) => s == ea
      | _ => false))
    ("invalid issuer: expected " ++ ei) ("invalid audience: expected " ++ ea) cl
  exact hok.trans (by simp only [guard_false_iff, claimString_iff])

theorem validateIA_ok_value (ei ea : String) (x cl : Claims)
    (h : validateIssuerAudience ei ea x = .ok cl) : cl = x := by
  unfold validateIssuerAudience at h
  split at h
  · exact Except.noConfusion h
  · split at h
    · exact Except.noConfusion h
    · injection h with hh
      exact hh.symm

theorem applyClaimsMapping_find?_of_mem (mapping : List (String × String))
    (claims : Claims) (params : SMap JSONValue) (c p : String) (v : JSONValue)
    (hnodup : (mapping.map Prod.snd).Nodup)
    (hmem : (c, p) ∈ mapping) (hv : claims.find? c = some v) :
    (applyClaimsMapping mapping claims params).find? p = some v := by
  induction mapping generalizing params with
  | nil => exact absurd hmem (List.not_mem_nil _)
  | cons q rest ih =>
    have hnodup' : (rest.map Prod.snd).Nodup := (List.nodup_cons.mp hnodup).2
    have hq2 : q.2 ∉ rest.map Prod.snd := (List.nodup_cons.mp hnodup).1
    rcases List.mem_cons.mp hmem with heq | hmem'
    · have hq1c : q.1 = c := by rw [← heq]
      have hq2p : q.2 = p := by rw [← heq]
      have hstep : applyClaimsMapping (q :: rest) claims params
          = applyClaimsMapping rest claims (params.insert p v) := by
        simp [applyClaimsMapping, hq1c, hq2p, hv]
      rw [hstep]
      have hrest : ∀ q' ∈ rest, q'.2 = p → claims.find? q'.1 = none := by
        intro q' hq' hq'p
        exfalso
        apply hq2
        rw [hq2p, ← hq'p]
        exact List.mem_map_of_mem Prod.snd hq'
      rw [applyClaimsMapping_find?_untouched rest claims _ p hrest]
      exact SMap.find?_insert_self params p v
    · cases hw : claims.find? q.1 with
      | none =>
        have hstep : applyClaimsMapping (q :: rest) claims params
            = applyClaimsMapping rest claims params := by
          simp [applyClaimsMapping, hw]
        rw [hstep]
        exact ih params hnodup' hmem'
      | some w =>
        have hstep : applyClaimsMapping (q :: rest) claims params
            = applyClaimsMapping rest claims (params.insert q.2 w) := by
          simp [applyClaimsMapping, hw]
        rw [hstep]
        exact ih (params.insert q.2 w) hnodup' hmem'

/- ------------------------------------------------------------------ -/
/- Claim theorems.                                                     -/
/- ------------------------------------------------------------------ -/

/-- C9: Chain.Wrap composes the middleware so that the first element in
configuration order is outermost (structurally, wrapping a chain applies
the head's Wrap around the wrapped tail, so the head runs first on the
way in and last on the way out — witnessed observationally by the trace
conjunct, where the first middleware's tag lands first); and when two
middleware in one chain set a parameter of the same name, the final
handler observes the value written by the middleware configured later. -/
theorem chain_wrap_first_outermost_last_writer_wins :
    (∀ (m : Middleware) (c : List Middleware) (h : Handler),
      Chain.Wrap (m :: c) h = m.wrapFn (Chain.Wrap c h)) ∧
    (∀ (p v1 v2 : String) (r : Request),
      Chain.Wrap
          [paramSetterMiddleware p (.str v1), paramSetterMiddleware p (.str v2)]
          (captureParam p) r =
        { status := 200, body := v2 }) ∧
    (∀ hs : SMap String,
      Chain.Wrap [appendTraceMiddleware "a", appendTraceMiddleware "b"]
          (captureParam "trace") { headers := hs, ctxParams := none } =
        { status := 200, body := "ab" }) := by
  refine ⟨fun m c h => rfl, fun p v1 v2 r => ?_, fun hs => ?_⟩
  · simp [Chain.Wrap, paramSetterMiddleware, captureParam, GetMiddlewareParams,
      SetMiddlewareParams, SMap.insert, SMap.find?]
  · simp [Chain.Wrap, appendTraceMiddleware, captureParam, GetMiddlewareParams,
      SetMiddlewareParams, SMap.insert, SMap.find?, SMap.empty]
    rfl

/-- C7: whenever authentication cannot succeed on a request (missing
Authorization header, not a Bearer header, empty token after trimming,
or failed verification), the required middleware answers 401 without
invoking the next handler (its response does not depend on next), and
the optional middleware passes the request through to next unmodified. -/
theorem bearer_wrap_auth_failure (parse : String → Except String Claims)
    (cfg : BearerJWKSConfig) (r : Request)
    (h : bearerAuthAttemptFails parse cfg.issuer cfg.audience r) :
    (cfg.required = true →
      ∀ next next' : Handler,
        (bearerWrap parse cfg next r).status = 401 ∧
        bearerWrap parse cfg next r = bearerWrap parse cfg next' r) ∧
    (cfg.required = false →
      ∀ next : Handler, bearerWrap parse cfg next r = next r) := by
  constructor
  · intro hreq next next'
    by_cases h1 : (headerGet r "Authorization") == ""
    · simp [bearerWrap, hreq, h1, httpError]
    · by_cases h2 : goHasPfx (headerGet r "Authorization") "Bearer " = true
      · by_cases h3 : goTrimSpace (goDrop (headerGet r "Authorization") 7) == ""
        · simp [bearerWrap, hreq, h1, h2, h3, httpError]
        · cases hv : validateToken parse cfg.issuer cfg.audience
              (goTrimSpace (goDrop (headerGet r "Authorization") 7)) with
          | error e' => simp [bearerWrap, hreq, h1, h2, h3, hv, httpError]
          | ok claims =>
            exfalso
            rcases h with h1' | h2' | h3' | ⟨e, h4⟩
            · exact h1 (by simp [h1'])
            · simp [h2'] at h2
            · exact h3 (by simp [h3'])
            · rw [hv] at h4
              exact Except.noConfusion h4
      · simp [bearerWrap, hreq, h1, h2, httpError]
  · intro hreq next
    by_cases h1 : (headerGet r "Authorization") == ""
    · simp [bearerWrap, hreq, h1]
    · by_cases h2 : goHasPfx (headerGet r "Authorization") "Bearer " = true
      · by_cases h3 : goTrimSpace (goDrop (headerGet r "Authorization") 7) == ""
        · simp [bearerWrap, hreq, h1, h2, h3]
        · cases hv : validateToken parse cfg.issuer cfg.audience
              (goTrimSpace (goDrop (headerGet r "Authorization") 7)) with
          | error e' => simp [bearerWrap, hreq, h1, h2, h3, hv]
          | ok claims =>
            exfalso
            rcases h with h1' | h2' | h3' | ⟨e, h4⟩
            · exact h1 (by simp [h1'])
            · simp [h2'] at h2
            · exact h3 (by simp [h3'])
            · rw [hv] at h4
              exact Except.noConfusion h4
      · simp [bearerWrap, hreq, h1, h2]

/-- C7 witness: a required configuration answers 401 to a request without
an Authorization header, independently of the next handler, and the same
configuration with required off passes the request through. -/
theorem bearer_wrap_auth_failure_witness :
    (bearerWrap parseRejectEx cfgRequiredEx okHandlerEx reqNoAuthEx).status = 401 ∧
    bearerWrap parseRejectEx cfgRequiredEx okHandlerEx reqNoAuthEx =
      bearerWrap parseRejectEx cfgRequiredEx (captureParam "user_id") reqNoAuthEx ∧
    bearerWrap parseRejectEx { cfgRequiredEx with required := false } okHandlerEx
        reqNoAuthEx =
      okHandlerEx reqNoAuthEx := by
  have hfail : bearerAuthAttemptFails parseRejectEx cfgRequiredEx.issuer
      cfgRequiredEx.audience reqNoAuthEx := Or.inl rfl
  have hreq := (bearer_wrap_auth_failure parseRejectEx cfgRequiredEx reqNoAuthEx
    hfail).1 rfl okHandlerEx (captureParam "user_id")
  have hfail' : bearerAuthAttemptFails parseRejectEx
      ({ cfgRequiredEx with required := false } : BearerJWKSConfig).issuer
      ({ cfgRequiredEx with required := false } : BearerJWKSConfig).audience
      reqNoAuthEx := Or.inl rfl
  have hopt := (bearer_wrap_auth_failure parseRejectEx
    { cfgRequiredEx with required := false } reqNoAuthEx hfail').2 rfl okHandlerEx
  exact ⟨hreq.1, hreq.2, hopt⟩

/-- C8: on a successfully verified token the middleware calls next with
the pre-existing parameters extended by the claims mapping: every
(claim, parameter) pair whose claim is present in the verified claims
sets that parameter to the claim's value, and any parameter not
targeted by such an applicable pair keeps its previous binding (so
mapping pairs whose claim is absent add nothing, and claims outside the
mapping add nothing).  Parameter names of the mapping are assumed
distinct, as the final value of a repeated name would depend on Go's
unspecified map iteration order. -/
theorem bearer_wrap_success_claims_mapping (parse : String → Except String Claims)
    (cfg : BearerJWKSConfig) (r : Request) (next : Handler) (claims : Claims)
    (hnodup : (cfg.claimsMapping.map Prod.snd).Nodup)
    (hbearer : goHasPfx (headerGet r "Authorization") "Bearer " = true)
    (htok : ((goTrimSpace (goDrop (headerGet r "Authorization") 7)) == "") = false)
    (hval : validateToken parse cfg.issuer cfg.audience
        (goTrimSpace (goDrop (headerGet r "Authorization") 7)) = .ok claims) :
    bearerWrap parse cfg next r =
      next (SetMiddlewareParams r
        (applyClaimsMapping cfg.claimsMapping claims (GetMiddlewareParams r))) ∧
    (∀ c p v, (c, p) ∈ cfg.claimsMapping → claims.find? c = some v →
      (applyClaimsMapping cfg.claimsMapping claims (GetMiddlewareParams r)).find? p
        = some v) ∧
    (∀ p, (∀ c, (c, p) ∈ cfg.claimsMapping → claims.find? c = none) →
      (applyClaimsMapping cfg.claimsMapping claims (GetMiddlewareParams r)).find? p
        = (GetMiddlewareParams r).find? p) := by
  have hne : ((headerGet r "Authorization") == "") = false := by
    rcases hx : headerGet r "Authorization" == "" with _ | _
    · rfl
    · have hx' := eq_of_beq hx
      rw [hx'] at hbearer
      exact absurd hbearer (by decide)
  refine ⟨?_, ?_, ?_⟩
  · simp [bearerWrap, hne, hbearer, htok, hval]
  · intro c p v hmem hv
    exact applyClaimsMapping_find?_of_mem cfg.claimsMapping claims
      (GetMiddlewareParams r) c p v hnodup hmem hv
  · intro p hp
    exact applyClaimsMapping_find?_untouched cfg.claimsMapping claims
      (GetMiddlewareParams r) p
      (fun q hq hq2 => hp q.1 (by rw [← hq2]; simpa using hq))

/-- C8 witness: the specification's scenario — a valid token with claims
sub 5 and role admin and the mapping sub to user_id, role to user_role —
reaches the final handler with user_id 5 and user_role admin set. -/
theorem bearer_wrap_success_claims_mapping_witness :
    bearerWrap parseAcceptEx cfgRequiredEx (captureParam "user_id") reqBearerEx =
      { status := 200, body := "5" } ∧
    (applyClaimsMapping cfgRequiredEx.claimsMapping claimsEx
        (GetMiddlewareParams reqBearerEx)).find? "user_id" = some (.str "5") ∧
    (applyClaimsMapping cfgRequiredEx.claimsMapping claimsEx
        (GetMiddlewareParams reqBearerEx)).find? "user_role" =
      some (.str "admin") := by
  have h := bearer_wrap_success_claims_mapping parseAcceptEx cfgRequiredEx
    reqBearerEx (captureParam "user_id") claimsEx (by decide) (by decide)
    (by decide) rfl
  refine ⟨?_, ?_, ?_⟩
  · rw [h.1]
    simp [captureParam, SetMiddlewareParams, GetMiddlewareParams, cfgRequiredEx,
      claimsEx, applyClaimsMapping, SMap.insert, SMap.find?, SMap.empty,
      reqBearerEx]
  · exact h.2.1 "sub" "user_id" (.str "5") (by simp [cfgRequiredEx]) rfl
  · exact h.2.1 "role" "user_role" (.str "admin") (by simp [cfgRequiredEx]) rfl

/-- C10: with a non-empty expected issuer or audience configured, the
post-parse validation succeeds exactly when the corresponding claim is a
JSON string equal to the expectation; an aud claim that is an array is
always rejected when an audience is expected, even an array containing
the expected audience; and any token that validateToken accepts
satisfies the same exact-string conditions. -/
theorem validateToken_issuer_audience_exact
    (parse : String → Except String Claims) (ei ea : String) (claims : Claims) :
    (validateIssuerAudience ei ea claims = .ok claims ↔
      (ei = "" ∨ claims.find? "iss" = some (.str ei)) ∧
      (ea = "" ∨ claims.find? "aud" = some (.str ea))) ∧
    (∀ l, ea ≠ "" → claims.find? "aud" = some (.arr l) →
      isOkE (validateIssuerAudience ei ea claims) = false) ∧
    (∀ t cl, validateToken parse ei ea t = .ok cl →
      (ei = "" ∨ cl.find? "iss" = some (.str ei)) ∧
      (ea = "" ∨ cl.find? "aud" = some (.str ea))) := by
  refine ⟨validateIA_eq_ok_iff ei ea claims, ?_, ?_⟩
  · intro l hea hfind
    have hb2 : (ea != "" && !(match claims.find? "aud" with
        | some (.str s) => s == ea
        | _ => false)) = true := by
      rw [hfind]
      simp [bne_iff_ne, hea]
    show isOkE (if (ei != "" && !(match claims.find? "iss" with
        | some (.str s) => s == ei
        | _ => false)) = true then _ else _) = false
    cases c1 : (ei != "" && !(match claims.find? "iss" with
        | some (.str s) => s == ei
        | _ => false)) with
    | false => simp [c1, hb2, isOkE]
    | true => simp [c1, isOkE]
  · intro t cl hcl
    unfold validateToken at hcl
    cases hp : parse t with
    | error e =>
      rw [hp] at hcl
      exact Except.noConfusion hcl
    | ok claims' =>
      rw [hp] at hcl
      have hcx : cl = claims' := validateIA_ok_value ei ea claims' cl hcl
      subst hcx
      exact (validateIA_eq_ok_iff ei ea cl).mp hcl

/-- C10 witness: with expected issuer iss1 and audience aud1, a claim set
whose iss and aud are those exact strings validates, while a claim set
whose aud is the array containing aud1 is rejected. -/
theorem validateToken_issuer_audience_exact_witness :
    validateIssuerAudience "iss1" "aud1" claimsIAEx = .ok claimsIAEx ∧
    isOkE (validateIssuerAudience "iss1" "aud1" claimsAudArrEx) = false := by
  have h1 := validateToken_issuer_audience_exact (fun _ => .ok claimsIAEx)
    "iss1" "aud1" claimsIAEx
  have h2 := validateToken_issuer_audience_exact (fun _ => .ok claimsAudArrEx)
    "iss1" "aud1" claimsAudArrEx
  refine ⟨h1.1.mpr ⟨Or.inr rfl, Or.inr rfl⟩, h2.2.1 [.str "aud1"] (by decide) rfl⟩

/-- C1: GetPublicKey reads only the in-memory key map: a sequence of N
consecutive GetPublicKey calls returns the pure lookups against the
current cache, leaves the state unchanged and issues zero HTTP
requests; an unknown kid is answered not-found immediately. -/
theorem getPublicKey_no_fetch (st : JWKSClientState) (kids : List String) :
    runGetPublicKeys st kids =
      (kids.map (fun kid => (GetPublicKey st kid).value), st, []) ∧
    (∀ kid, st.cache.keysByID.find? kid = none →
      (GetPublicKey st kid).value = .error ("key not found for kid: " ++ kid)) := by
  constructor
  · induction kids with
    | nil => rfl
    | cons kid rest ih =>
      simp only [runGetPublicKeys, List.map_cons]
      rw [show (GetPublicKey st kid).state = st from rfl]
      rw [ih]
      rfl
  · intro kid h
    simp [GetPublicKey, h]

/-- C1 witness: three consecutive lookups of an unknown kid on an empty
cache return not-found, leave the state unchanged and issue zero HTTP
requests. -/
theorem getPublicKey_no_fetch_witness :
    runGetPublicKeys stEmptyEx ["unknown", "unknown", "unknown"] =
      ([.error "key not found for kid: unknown",
        .error "key not found for kid: unknown",
        .error "key not found for kid: unknown"], stEmptyEx, []) ∧
    (GetPublicKey stEmptyEx "unknown").value =
      .error "key not found for kid: unknown" := by
  have h := getPublicKey_no_fetch stEmptyEx ["unknown", "unknown", "unknown"]
  refine ⟨?_, h.2 "unknown" rfl⟩
  rw [h.1]
  rfl

/-- C2: a sequence of failed refresh attempts (network error, non-200
status, unreadable or malformed body) leaves the cache record — and so
the result of every GetPublicKey lookup — unchanged. -/
theorem serve_stale_on_failed_refreshes (ext : ExtPrimitives)
    (st : JWKSClientState) (events : List (HTTPResult × Int))
    (hfail : ∀ e ∈ events, fetchFails e.1 = true) :
    (applyRefreshes ext st events).cache = st.cache ∧
    (∀ kid, (GetPublicKey (applyRefreshes ext st events) kid).value =
      (GetPublicKey st kid).value) := by
  have hcache : (applyRefreshes ext st events).cache = st.cache := by
    induction events generalizing st with
    | nil => rfl
    | cons e rest ih =>
      have hfe : fetchFails e.1 = true := hfail e (List.mem_cons_self e rest)
      have hstep : (performRefresh ext st e.1 e.2).state.cache = st.cache := by
        cases he : e.1 with
        | netFailure => rfl
        | response statusCode cacheControl body =>
          rw [he] at hfe
          by_cases hs : statusCode = 200
          · subst hs
            cases body with
            | unreadable => rfl
            | malformed => rfl
            | jwks keys => simp [fetchFails] at hfe
          · simp [performRefresh, fetchJWKSFromServer, hs]
      have hrest : ∀ e' ∈ rest, fetchFails e'.1 = true :=
        fun e' he' => hfail e' (List.mem_cons_of_mem e he')
      calc (applyRefreshes ext st (e :: rest)).cache
      _ = (applyRefreshes ext (performRefresh ext st e.1 e.2).state rest).cache := rfl
      _ = (performRefresh ext st e.1 e.2).state.cache := ih _ hrest
      _ = st.cache := hstep
  refine ⟨hcache, fun kid => ?_⟩
  simp [GetPublicKey, hcache]

/-- C2 witness: a populated cache survives a transport error, a 500
response and a malformed body, and the cached key stays retrievable. -/
theorem serve_stale_on_failed_refreshes_witness :
    (applyRefreshes extEx stPopulatedEx failedEventsEx).cache =
      stPopulatedEx.cache ∧
    (GetPublicKey (applyRefreshes extEx stPopulatedEx failedEventsEx)
        "key-1").value = (GetPublicKey stPopulatedEx "key-1").value := by
  have h := serve_stale_on_failed_refreshes extEx stPopulatedEx failedEventsEx
    (by decide)
  exact ⟨h.1, h.2 "key-1"⟩

/-- C3: a successful fetch replaces the key map wholesale with exactly
the parseable RSA keys of the response, and afterwards GetPublicKey
finds a kid precisely when it is among those keys (so a previously
cached kid absent from the response is no longer found). -/
theorem successful_fetch_replaces_keys (ext : ExtPrimitives)
    (st : JWKSClientState) (now : Int) (cacheControl : String)
    (keys : List JWK) :
    ((performRefresh ext st
        (.response 200 cacheControl (.jwks keys)) now).state.cache.keysByID =
      buildKeysByID ext keys) ∧
    (∀ kid,
      isOkE (GetPublicKey (performRefresh ext st
          (.response 200 cacheControl (.jwks keys)) now).state kid).value = true ↔
        kid ∈ parsedKeyIDs ext keys) := by
  have hstate : (performRefresh ext st
      (.response 200 cacheControl (.jwks keys)) now).state.cache.keysByID =
      buildKeysByID ext keys := rfl
  refine ⟨hstate, fun kid => ?_⟩
  have hlk : isOkE (GetPublicKey (performRefresh ext st
      (.response 200 cacheControl (.jwks keys)) now).state kid).value = true ↔
      ((buildKeysByID ext keys).find? kid).isSome = true := by
    rw [show (GetPublicKey (performRefresh ext st
      (.response 200 cacheControl (.jwks keys)) now).state kid).value =
      (match (buildKeysByID ext keys).find? kid with
        | some rsaPublicKey => Except.ok rsaPublicKey
        | none => Except.error ("key not found for kid: " ++ kid)) from rfl]
    cases (buildKeysByID ext keys).find? kid <;> simp [isOkE]
  rw [hlk]
  exact buildKeysByID_find?_isSome ext keys kid

/-- C4 counterexample: a cache that was fetched successfully (one key,
one-hour TTL) and then suffers a failed refresh attempt at instant 2000
is reported unhealthy by the source's IsHealthy at instant 2500, while
the claimed predicate (non-empty keys and elapsed time below ttl) says
healthy — so IsHealthy is not the claimed function, and a failed fetch
alone flips it even though the previous fetch has not expired. -/
theorem isHealthy_claim_counterexample :
    V1.IsHealthy cacheV1Ex = false ∧ V1.IsHealthyClaimed 2500 cacheV1Ex = true := by
  exact ⟨rfl, rfl⟩

/-- C4 amended: the V1 IsHealthy is true exactly when no fetch was ever
attempted, or the key map is non-empty and the most recent fetch
attempt succeeded (lastFetchOK); elapsed time against ttl is not
consulted, and any failed fetch attempt at a nonzero instant makes
IsHealthy false even though cached keys are preserved. -/
theorem isHealthy_matches_lastFetchOK :
    (∀ c : V1.JWKSCache, V1.IsHealthy c = true ↔
      (c.fetchedAt = 0 ∨
        (c.keysByID.isEmpty = false ∧ c.lastFetchOK = true))) ∧
    (∀ (c : V1.JWKSCache) (now : Int), now ≠ 0 →
      V1.IsHealthy (V1.fetchFail c now) = false) := by
  constructor
  · intro c
    by_cases h0 : c.fetchedAt = 0
    · simp [V1.IsHealthy, beq_iff_eq, h0]
    · simp [V1.IsHealthy, beq_iff_eq, h0, Bool.and_eq_true, Bool.not_eq_true']
  · intro c now hn
    simp [V1.fetchFail, V1.IsHealthy, beq_iff_eq, hn]

/-- C4 amended witness: the counterexample cache satisfies the amended
characterisation, and a failed fetch at instant 999 leaves it
unhealthy. -/
theorem isHealthy_matches_lastFetchOK_witness :
    (V1.IsHealthy cacheV1Ex = true ↔
      (cacheV1Ex.fetchedAt = 0 ∨
        (cacheV1Ex.keysByID.isEmpty = false ∧ cacheV1Ex.lastFetchOK = true))) ∧
    V1.IsHealthy (V1.fetchFail cacheV1Ex 999) = false :=
  ⟨isHealthy_matches_lastFetchOK.1 cacheV1Ex,
   isHealthy_matches_lastFetchOK.2 cacheV1Ex 999 (by decide)⟩

/-- C5 counterexample: at thirty consecutive failures the float64
product 30s * 2^29 nanoseconds (about 1.61e19) no longer fits int64, so
the time.Duration conversion — which the source performs before the
ten-minute cap — overflows; on gc/amd64 it yields the sentinel -2^63,
the cap comparison then fails, and the computed delay is -2^63
nanoseconds, far below the claimed lower bound of 0.75 * 600 seconds. -/
theorem backoff_claim_counterexample :
    calculateBackoffDuration 30 (1 / 2) = -(2 ^ 63) ∧
    4 * calculateBackoffDuration 30 (1 / 2) <
      3 * (backoffBaseSeconds 30 * nsPerSecond) := by
  have hcast : ((30 * nsPerSecond : Int) : ℚ) * (2 : ℚ) ^ (30 - 1) =
      ((16106127360000000000 : Int) : ℚ) := by
    norm_num [nsPerSecond]
  have hover : goFloatToInt64 (((30 * nsPerSecond : Int) : ℚ) * (2 : ℚ) ^ (30 - 1)) =
      -(2 ^ 63) := by
    rw [hcast]
    simp only [goFloatToInt64, ratTruncToInt_intCast]
    rw [if_pos (Or.inr (by norm_num))]
  have hmain : calculateBackoffDuration 30 (1 / 2) = -(2 ^ 63) := by
    simp only [calculateBackoffDuration]
    rw [if_neg (by norm_num : ¬(30 = 0))]
    rw [hover]
    rw [if_neg (by norm_num [nsPerSecond] :
      ¬((-(2 ^ 63) : Int) > 600 * nsPerSecond))]
    have hv0 : (1 / 2 : ℚ) * 2 * (((-(2 ^ 63) : Int) : ℚ) * (1 / 4)) -
        (((-(2 ^ 63) : Int) : ℚ) * (1 / 4)) = ((0 : Int) : ℚ) := by
      push_cast
      ring
    rw [hv0, goFloatToInt64_intCast 0 (by norm_num) (by norm_num)]
    rw [show (-(2 ^ 63) : Int) + 0 = -(2 ^ 63) from by ring]
    unfold wrap64
    norm_num
  refine ⟨hmain, ?_⟩
  rw [hmain]
  have hbase : backoffBaseSeconds 30 = 600 := by
    norm_num [backoffBaseSeconds, min_def]
  rw [hbase]
  norm_num [nsPerSecond]

/-- C5 amended: the backoff delay for zero failures is exactly 0, and
for n between 1 and 29 failures — where the float64 product
30s * 2^(n-1) still fits int64, so the Duration conversion is exact —
every jitter draw in [0, 1) puts the delay within plus/minus 25
percent of min(30 * 2^(n-1), 600) seconds, stated without division as
3B <= 4*delay <= 5B for B the base in nanoseconds.  From n = 30 the
conversion overflows before the cap and the bound fails (see the
counterexample). -/
theorem backoff_duration_bounds (n : Nat) (r : ℚ) (h0 : 0 ≤ r) (h1 : r < 1) :
    calculateBackoffDuration 0 r = 0 ∧
    (1 ≤ n → n ≤ 29 →
      3 * (backoffBaseSeconds n * nsPerSecond) ≤
        4 * calculateBackoffDuration n r ∧
      4 * calculateBackoffDuration n r ≤
        5 * (backoffBaseSeconds n * nsPerSecond)) := by
  refine ⟨rfl, fun hn hn29 => ?_⟩
  have hn0 : n ≠ 0 := Nat.one_le_iff_ne_zero.mp hn
  have hns : (0 : Int) < nsPerSecond := by norm_num [nsPerSecond]
  have hraw : (30 * nsPerSecond * 2 ^ (n - 1) : Int) =
      (30 * 2 ^ (n - 1)) * nsPerSecond := by ring
  have hpow : (2 : Int) ^ (n - 1) ≤ 2 ^ 28 := by
    apply pow_le_pow_right₀ (by norm_num)
    omega
  have hrawpos : (0 : Int) < 30 * nsPerSecond * 2 ^ (n - 1) := by
    have h2 : (0 : Int) < 2 ^ (n - 1) := by positivity
    positivity
  have hrawle : (30 * nsPerSecond * 2 ^ (n - 1) : Int) ≤ 2 ^ 63 - 1 := by
    calc (30 * nsPerSecond * 2 ^ (n - 1) : Int)
        ≤ 30 * nsPerSecond * 2 ^ 28 := by
          apply mul_le_mul_of_nonneg_left hpow
          norm_num [nsPerSecond]
      _ ≤ 2 ^ 63 - 1 := by norm_num [nsPerSecond]
  have hcast : ((30 * nsPerSecond : Int) : ℚ) * (2 : ℚ) ^ (n - 1) =
      ((30 * nsPerSecond * 2 ^ (n - 1) : Int) : ℚ) := by
    push_cast
    ring
  have hconv : goFloatToInt64 (((30 * nsPerSecond : Int) : ℚ) * (2 : ℚ) ^ (n - 1)) =
      30 * nsPerSecond * 2 ^ (n - 1) := by
    rw [hcast]
    exact goFloatToInt64_intCast _ (le_trans (by norm_num) hrawpos.le) hrawle
  have hmin : (if (30 * nsPerSecond * 2 ^ (n - 1) : Int) > 600 * nsPerSecond
      then (600 * nsPerSecond : Int)
      else 30 * nsPerSecond * 2 ^ (n - 1)) =
      backoffBaseSeconds n * nsPerSecond := by
    rw [hraw]
    by_cases hgt : ((30 * 2 ^ (n - 1) : Int) * nsPerSecond > 600 * nsPerSecond)
    · rw [if_pos hgt]
      have hlt : (600 : Int) < 30 * 2 ^ (n - 1) :=
        (mul_lt_mul_right hns).mp hgt
      rw [backoffBaseSeconds, min_eq_right hlt.le]
    · rw [if_neg hgt]
      push_neg at hgt
      have hle : (30 * 2 ^ (n - 1) : Int) ≤ 600 :=
        (mul_le_mul_right hns).mp hgt
      rw [backoffBaseSeconds, min_eq_left hle]
  have hBpos : (0 : Int) < backoffBaseSeconds n * nsPerSecond := by
    have h30 : (0 : Int) < 30 * 2 ^ (n - 1) := by positivity
    have hmn : (0 : Int) < backoffBaseSeconds n := lt_min h30 (by norm_num)
    exact mul_pos hmn hns
  have hBle : backoffBaseSeconds n * nsPerSecond ≤ 600 * nsPerSecond :=
    mul_le_mul_of_nonneg_right (min_le_right _ _) hns.le
  have hBeq : calculateBackoffDuration n r =
      wrap64 (backoffBaseSeconds n * nsPerSecond +
        goFloatToInt64 (r * 2 * ((backoffBaseSeconds n * nsPerSecond : Int) * (1 / 4) : ℚ) -
          ((backoffBaseSeconds n * nsPerSecond : Int) * (1 / 4) : ℚ))) := by
    simp only [calculateBackoffDuration, if_neg hn0, hconv, hmin]
  set B : Int := backoffBaseSeconds n * nsPerSecond with hBdef
  set jq : ℚ := ((B : ℚ) * (1 / 4)) with hjq
  set v : ℚ := r * 2 * jq - jq with hv
  have hjq0 : 0 ≤ jq := by
    rw [hjq]
    have : (0 : ℚ) ≤ (B : ℚ) := by exact_mod_cast hBpos.le
    linarith
  have hjqle : jq ≤ 150000000000 := by
    have hBleZ : B ≤ 600000000000 := by
      have := hBle
      norm_num [nsPerSecond] at this
      exact this
    have hBq : (B : ℚ) ≤ 600000000000 := by exact_mod_cast hBleZ
    rw [hjq]
    linarith
  have hlowv : -jq ≤ v := by
    rw [hv]
    nlinarith
  have hhighv : v ≤ jq := by
    rw [hv]
    nlinarith
  have htr_low : -jq ≤ (ratTruncToInt v : ℚ) := by
    unfold ratTruncToInt
    by_cases hvn : v < 0
    · rw [if_pos hvn]
      exact le_trans hlowv (Int.le_ceil v)
    · rw [if_neg hvn]
      push_neg at hvn
      have : (0 : ℚ) ≤ (Int.floor v : ℚ) := by
        exact_mod_cast Int.floor_nonneg.mpr hvn
      linarith
  have htr_high : (ratTruncToInt v : ℚ) ≤ jq := by
    unfold ratTruncToInt
    by_cases hvn : v < 0
    · rw [if_pos hvn]
      have hc : Int.ceil v ≤ (0 : ℤ) := Int.ceil_le.mpr (by exact_mod_cast hvn.le)
      have : (Int.ceil v : ℚ) ≤ 0 := by exact_mod_cast hc
      linarith
    · rw [if_neg hvn]
      exact le_trans (Int.floor_le v) hhighv
  have hTlowZ : (-150000000000 : Int) ≤ ratTruncToInt v := by
    have hq : (-150000000000 : ℚ) ≤ (ratTruncToInt v : ℚ) := by
      linarith
    exact_mod_cast hq
  have hThighZ : ratTruncToInt v ≤ (150000000000 : Int) := by
    have hq : (ratTruncToInt v : ℚ) ≤ 150000000000 := by
      linarith
    exact_mod_cast hq
  have hjconv : goFloatToInt64 v = ratTruncToInt v := by
    apply goFloatToInt64_eq_trunc
    · calc (-(2 ^ 63) : Int) ≤ -150000000000 := by norm_num
        _ ≤ ratTruncToInt v := hTlowZ
    · calc ratTruncToInt v ≤ (150000000000 : Int) := hThighZ
        _ ≤ 2 ^ 63 - 1 := by norm_num
  rw [hjconv] at hBeq
  have hBleZ : B ≤ 600000000000 := by
    have := hBle
    norm_num [nsPerSecond] at this
    exact this
  have hwrap : wrap64 (B + ratTruncToInt v) = B + ratTruncToInt v := by
    apply wrap64_eq_self
    · have hlo : (-(2 ^ 63) : Int) ≤ -150000000000 := by norm_num
      linarith
    · have hhi : (750000000000 : Int) < 2 ^ 63 := by norm_num
      linarith
  rw [hwrap] at hBeq
  have h4low : -B ≤ 4 * ratTruncToInt v := by
    have hq : -(B : ℚ) ≤ 4 * (ratTruncToInt v : ℚ) := by
      rw [hjq] at htr_low
      linarith
    exact_mod_cast hq
  have h4high : 4 * ratTruncToInt v ≤ B := by
    have hq : 4 * (ratTruncToInt v : ℚ) ≤ (B : ℚ) := by
      rw [hjq] at htr_high
      linarith
    exact_mod_cast hq
  constructor
  · rw [hBeq]
    linarith
  · rw [hBeq]
    linarith

/-- C5 witness: with three failures and jitter draw one half the bounds
hold at the concrete base of 120 seconds. -/
theorem backoff_duration_bounds_witness :
    calculateBackoffDuration 0 (1 / 2) = 0 ∧
    (1 ≤ 3 → 3 ≤ 29 →
      3 * (backoffBaseSeconds 3 * nsPerSecond) ≤
        4 * calculateBackoffDuration 3 (1 / 2) ∧
      4 * calculateBackoffDuration 3 (1 / 2) ≤
        5 * (backoffBaseSeconds 3 * nsPerSecond)) :=
  backoff_duration_bounds 3 (1 / 2) (by norm_num) (by norm_num)

/-- C6 counterexample: the header "max-age=120, no-cache" contains the
directive no-cache, yet the parser returns 120 seconds, not 0 — the
first matching directive wins, so "containing no-cache yields TTL 0"
is false as a statement about whole headers. -/
theorem cacheControl_claim_counterexample :
    (goSplitOnComma "max-age=120, no-cache").map goTrimSpace =
      ["max-age=120", "no-cache"] ∧
    parseCacheControl (600 * nsPerSecond) "max-age=120, no-cache" =
      120 * nsPerSecond ∧
    (120 * nsPerSecond : Int) ≠ 0 := by
  refine ⟨by decide, by decide, by norm_num [nsPerSecond]⟩

/-- C6 amended: the parser follows first-match semantics — scanning the
comma-separated directives left to right, the first one that decides
(a well-formed nonnegative max-age deciding that many seconds, or an
exact no-cache or no-store deciding zero) fixes the TTL, and an absent
header or a scan with no deciding directive yields the fallback TTL. -/
theorem parseCacheControl_first_match (fallbackTTL : Int) (cacheControl : String) :
    parseCacheControl fallbackTTL cacheControl =
      parseCacheControlFirstMatch fallbackTTL cacheControl := by
  have hloop : ∀ ds : List String,
      parseCacheControlLoop fallbackTTL ds =
        (match ds.findSome? directiveDecision with
         | some ttl => ttl
         | none => fallbackTTL) := by
    intro ds
    induction ds with
    | nil => rfl
    | cons d rest ih =>
      cases hpfx : goHasPfx (goTrimSpace d) "max-age=" with
      | true =>
        have hnc : ((goTrimSpace d == "no-cache") || (goTrimSpace d == "no-store"))
            = false := by
          rcases h1 : goTrimSpace d == "no-cache" with _ | _
          · rcases h2 : goTrimSpace d == "no-store" with _ | _
            · rfl
            · have he := eq_of_beq h2
              rw [he] at hpfx
              exact absurd hpfx (by decide)
          · have he := eq_of_beq h1
            rw [he] at hpfx
            exact absurd hpfx (by decide)
        cases ha : atoi (goDrop (goTrimSpace d) 8) with
        | some m =>
          by_cases hm : m ≥ 0
          · simp [parseCacheControlLoop, directiveDecision, hpfx, ha, hm,
              List.findSome?]
          · simp [parseCacheControlLoop, directiveDecision, hpfx, ha, hm, hnc,
              List.findSome?, ih]
        | none =>
          simp [parseCacheControlLoop, directiveDecision, hpfx, ha, hnc,
            List.findSome?, ih]
      | false =>
        cases hnc : ((goTrimSpace d == "no-cache") || (goTrimSpace d == "no-store")) with
        | true =>
          simp [parseCacheControlLoop, directiveDecision, hpfx, hnc,
            List.findSome?]
        | false =>
          simp [parseCacheControlLoop, directiveDecision, hpfx, hnc,
            List.findSome?, ih]
  unfold parseCacheControl parseCacheControlFirstMatch
  by_cases hcc : (cacheControl == "") = true
  · rw [if_pos hcc, if_pos hcc]
  · rw [if_neg hcc, if_neg hcc]
    exact hloop (goSplitOnComma cacheControl)

end SimpleQueryServer
